import Mathlib

/-!
Verification of the value codec and checksum routine of
`src/rctclient/utils.py` (python-rctclient).

The Python source is shallowly embedded: bytes are `Nat` values (< 256 for
well-formed byte strings), Python `int` is `Int`, machine words are `Nat`
with explicit bounds, fallible code returns `Except PyError`.  Python
`datetime.fromtimestamp` is modelled as the identity on the unix timestamp,
and a Python `dict` as an insertion-ordered association list with
last-write-wins update, which is exactly the observable behaviour the
decoders rely on.
-/

namespace Rct

/-- Errors the Python code can raise: `struct.error` from `struct.pack` or
`struct.unpack`, `AssertionError` from `assert`, `ValueError` (from
`bytes([...])` with an argument above 255, or a bad string-encode input),
`UnicodeDecodeError` from `.decode("ascii")` on a byte at or above 128,
`OverflowError` from packing an unrepresentable float, and `KeyError`
raised explicitly for undefined type tags. -/
inductive PyError where
  | structError
  | assertError
  | valueError
  | unicodeDecodeError
  | overflowError
  | keyError
deriving DecidableEq

/-- Modelled from the spec (section 3): the `DataType` enumeration of
`rctclient/types.py`, which is not included under `src/`.  The spec lists
exactly these twelve tags; the numeric enum values are never used by the
codec. -/
inductive DataType where
  | BOOL
  | UINT8
  | INT8
  | UINT16
  | INT16
  | UINT32
  | INT32
  | ENUM
  | FLOAT
  | STRING
  | TIMESERIES
  | EVENT_TABLE
deriving DecidableEq

/-- Modelled from the spec (section 3): the `EventEntry` class of
`rctclient/types.py`, which is not included under `src/`.  An entry carries
a timestamp, a message identifier, a one-character entry-type discriminator
(kept as its ASCII code), and either an old/new value pair or an end
timestamp; fields not passed at the construction sites in `utils.py`
default to `none`. -/
structure EventEntry where
  timestamp : Nat
  message_id : Nat
  entry_type : Nat
  value_old : Option Nat := none
  value_new : Option Nat := none
  timestamp_end : Option Nat := none
deriving DecidableEq

/-- Input values accepted by `encode_value`.  A Python `bool` is its `int`
value (`True` is 1, `False` is 0).  A Python `float` holding a value that
is exactly representable in IEEE-754 single precision is identified with
the 32-bit pattern of that single-precision value (`floatBits`); this is
the level at which `struct.pack(">f")` and `struct.unpack(">f")` operate. -/
inductive Value where
  | int (i : Int)
  | floatBits (b : Nat)
  | str (s : String)
  | bytes (bs : List Nat)
deriving DecidableEq

/-- Results of `decode_value`: the scalar Python returns, or one of the two
composite (anchor, mapping) pairs.  Sample values of a time series are kept
as their single-precision bit patterns. -/
inductive DecodedValue where
  | bool (b : Bool)
  | int (i : Int)
  | floatBits (b : Nat)
  | str (s : String)
  | timeseries (anchor : Nat) (samples : List (Nat × Nat))
  | eventTable (anchor : Nat) (entries : List (Nat × EventEntry))
deriving DecidableEq

/-! ## Checksum engine: `CRC16` (utils.py lines 13-33) -/

/-- The CCITT polynomial constant of `CRC16`. -/
def polynom : Nat := 0x1021

/-- One iteration of the inner `for bit in range(8)` loop of `CRC16`:
`crcsum <<= 1`, then on overflow past bit 15 mask to 16 bits and fold in
the polynomial. -/
def crcStepBit (c : Nat) : Nat :=
  let c2 := c <<< 1
  if c2 &&& 0x7FFF0000 ≠ 0 then (c2 &&& 0x0000FFFF) ^^^ polynom else c2

/-- `n` iterations of the bit loop. -/
def crcBits : Nat → Nat → Nat
  | 0, c => c
  | n + 1, c => crcBits n (crcStepBit c)

/-- The body of the `for byte in buffer` loop of `CRC16`:
`crcsum ^= byte << 8` followed by the eight bit iterations. -/
def crcByteStep (c b : Nat) : Nat :=
  crcBits 8 (c ^^^ (b <<< 8))

/-- `CRC16` from utils.py: seed 0xFFFF, append a zero byte when the input
length is odd (`len(data) & 0x01`), then run the byte loop. -/
def CRC16 (data : List Nat) : Nat :=
  let buffer := if data.length &&& 0x01 ≠ 0 then data ++ [0] else data
  buffer.foldl crcByteStep 0xFFFF

/-- Modelled from the spec words (section 4.1), for comparison with the
code: one bit round of the reference algorithm.  The accumulator is
shifted left one bit; if any bit at or above position 16 of the widened
accumulator is set (that is, the accumulator reached 2^16), it is masked
down to 16 bits and XORed with the polynomial constant 0x1021. -/
def crcRefStep (c : Nat) : Nat :=
  let c2 := c * 2
  if 2 ^ 16 ≤ c2 then (c2 % 2 ^ 16) ^^^ 0x1021 else c2

/-- Modelled from the spec: `n` bit rounds of the reference algorithm. -/
def crcRefBits : Nat → Nat → Nat
  | 0, c => c
  | n + 1, c => crcRefBits n (crcRefStep c)

/-- Modelled from the spec: per byte, XOR the byte shifted into the high
8 bits of the accumulator, then run eight bit rounds. -/
def crcRefByteStep (c b : Nat) : Nat :=
  crcRefBits 8 (c ^^^ b * 2 ^ 8)

/-- Modelled from the spec (section 4.1): the reference checksum.  Seed
0xFFFF, append one zero byte when the input length is odd, process each
byte, and return the low 16 bits of the accumulator. -/
def crcRef (data : List Nat) : Nat :=
  let buffer := if data.length % 2 = 1 then data ++ [0] else data
  (buffer.foldl crcRefByteStep 0xFFFF) % 2 ^ 16

/-! ## Byte-level helpers shared by the codec -/

/-- Python slice `data[i:j]` for 0 ≤ i ≤ j. -/
def pySlice (data : List Nat) (i j : Nat) : List Nat :=
  (data.take j).drop i

/-- `struct.unpack(">H", bs)`: exactly two bytes, big endian; anything
else raises `struct.error` (modelled as `none`). -/
def readU16 : List Nat → Option Nat
  | [a, b] => some (a * 256 + b)
  | _ => none

/-- `struct.unpack(">I", bs)`: exactly four bytes, big endian. -/
def readU32 : List Nat → Option Nat
  | [a, b, c, d] => some (((a * 256 + b) * 256 + c) * 256 + d)
  | _ => none

/-- `struct.pack(">H", n)` for `0 ≤ n < 2^16`. -/
def u16ToBytes (n : Nat) : List Nat :=
  [n / 256, n % 256]

/-- `struct.pack(">I", n)` for `0 ≤ n < 2^32`. -/
def u32ToBytes (n : Nat) : List Nat :=
  [n / 16777216, n / 65536 % 256, n / 256 % 256, n % 256]

/-- Two's-complement reading of an unsigned value `n < m` at modulus `m`
(`m` is 256, 2^16 or 2^32), as done by `struct.unpack` of the signed
formats `>b`, `>h`, `>i`. -/
def asSigned (m : Nat) (n : Nat) : Int :=
  if n < m / 2 then (n : Int) else (n : Int) - (m : Int)

/-- Python `range(start, stop, step)` for a positive `step`. -/
def pyRange (start stop step : Nat) : List Nat :=
  List.range' start ((stop - start + step - 1) / step) step

/-- Python dict update `d[k] = v`: overwriting keeps the original position
of the key, a fresh key is appended at the end. -/
def dictInsert {A : Type} (k : Nat) (v : A) : List (Nat × A) → List (Nat × A)
  | [] => [(k, v)]
  | (k0, v0) :: rest =>
      if k = k0 then (k0, v) :: rest else (k0, v0) :: dictInsert k v rest

/-- Python truthiness of `value != 0` as evaluated in the `BOOL` branch of
`encode_value`.  A float compares equal to 0 exactly when its bits are a
signed zero (NaN is unequal to everything, hence truthy); a `str` or
`bytes` is never equal to the integer 0. -/
def pyNeZero : Value → Bool
  | .int i => i != 0
  | .floatBits b => !(b == 0 || b == 0x80000000)
  | .str _ => true
  | .bytes _ => true

/-! ## `encode_value` (utils.py lines 36-80) -/

/-- `encode_value` from utils.py.  The unsigned branches first run
`struct.pack` with the signed format of the same width (raising
`struct.error` outside the signed range) and reinterpret the packed bits
as unsigned; the signed branches pack directly.  `struct.pack` raises
`struct.error` on a non-integer argument to an integer format.  The
`FLOAT` branch packs the single-precision bit pattern; a Python `int`
argument (which `struct.pack(">f")` would convert to float) is not
modelled, since no representation-level claim concerns it. -/
def encode_value (data_type : DataType) (value : Value) : Except PyError (List Nat) :=
  match data_type with
  | .BOOL => .ok [if pyNeZero value then 1 else 0]
  | .UINT8 =>
      match value with
      | .int i =>
          if -128 ≤ i ∧ i ≤ 127 then .ok [(i % 256).toNat] else .error .structError
      | _ => .error .structError
  | .INT8 =>
      match value with
      | .int i =>
          if -128 ≤ i ∧ i ≤ 127 then .ok [(i % 256).toNat] else .error .structError
      | _ => .error .structError
  | .UINT16 =>
      match value with
      | .int i =>
          if -32768 ≤ i ∧ i ≤ 32767 then .ok (u16ToBytes (i % 65536).toNat)
          else .error .structError
      | _ => .error .structError
  | .INT16 =>
      match value with
      | .int i =>
          if -32768 ≤ i ∧ i ≤ 32767 then .ok (u16ToBytes (i % 65536).toNat)
          else .error .structError
      | _ => .error .structError
  | .UINT32 =>
      match value with
      | .int i =>
          if -2147483648 ≤ i ∧ i ≤ 2147483647 then .ok (u32ToBytes (i % 4294967296).toNat)
          else .error .structError
      | _ => .error .structError
  | .INT32 =>
      match value with
      | .int i =>
          if -2147483648 ≤ i ∧ i ≤ 2147483647 then .ok (u32ToBytes (i % 4294967296).toNat)
          else .error .structError
      | _ => .error .structError
  | .ENUM =>
      match value with
      | .int i =>
          if -32768 ≤ i ∧ i ≤ 32767 then .ok (u16ToBytes (i % 65536).toNat)
          else .error .structError
      | _ => .error .structError
  | .FLOAT =>
      match value with
      | .floatBits b =>
          if b < 4294967296 then .ok (u32ToBytes b) else .error .overflowError
      | _ => .error .structError
  | .STRING =>
      match value with
      | .str s => .ok ((s.toUTF8.toList).map (fun c => c.toNat))
      | .bytes bs => .ok bs
      | _ => .error .valueError
  | .TIMESERIES => .error .keyError
  | .EVENT_TABLE => .error .keyError

/-! ## `decode_value` (utils.py lines 83-155) -/

/-- Body of the `TIMESERIES` loop of `decode_value` at pair index `pair`:
unpack the sample timestamp at `data[4+pair*4 : 4+pair*4+4]` and the
sample value at the following four bytes. -/
def tsBody (data : List Nat) (pair : Nat) : Except PyError (Nat × Nat) :=
  match readU32 (pySlice data (4 + pair * 4) (4 + pair * 4 + 4)) with
  | none => .error .structError
  | some ts =>
      match readU32 (pySlice data (4 + pair * 4 + 4) (4 + pair * 4 + 4 + 4)) with
      | none => .error .structError
      | some v => .ok (ts, v)

/-- The `TIMESERIES` loop: build the sample dict over the pair indices. -/
def tsFold (data : List Nat) : List Nat → List (Nat × Nat) → Except PyError (List (Nat × Nat))
  | [], d => .ok d
  | p :: ps, d =>
      match tsBody data p with
      | .error e => .error e
      | .ok (k, v) => tsFold data ps (dictInsert k v d)

/-- Body of the `EVENT_TABLE` loop of `decode_value` at pair index `pair`.
`bytes([w])` raises `ValueError` when the unpacked 32-bit entry-type field
`w` is 256 or more, and `.decode("ascii")` raises `UnicodeDecodeError`
when it is between 128 and 255; otherwise the entry type is the character
with code `w`.  Entry types `s` (code 115) and `w` (code 119) carry the
old/new value pair, every other entry type carries an end timestamp. -/
def etBody (data : List Nat) (pair : Nat) : Except PyError (Nat × EventEntry) :=
  match readU32 (pySlice data (4 + pair * 4) (4 + pair * 4 + 4)) with
  | none => .error .structError
  | some w0 =>
      if 256 ≤ w0 then .error .valueError
      else if 128 ≤ w0 then .error .unicodeDecodeError
      else
        match readU32 (pySlice data (4 + pair * 4 + 4) (4 + pair * 4 + 8)) with
        | none => .error .structError
        | some ts =>
            if w0 = 115 ∨ w0 = 119 then
              match readU32 (pySlice data (4 + pair * 4 + 8) (4 + pair * 4 + 12)),
                    readU32 (pySlice data (4 + pair * 4 + 12) (4 + pair * 4 + 16)),
                    readU32 (pySlice data (4 + pair * 4 + 16) (4 + pair * 4 + 20)) with
              | some message_id, some value_old, some value_new =>
                  .ok (ts, { timestamp := ts, message_id := message_id, entry_type := w0,
                             value_old := some value_old, value_new := some value_new })
              | _, _, _ => .error .structError
            else
              match readU32 (pySlice data (4 + pair * 4 + 12) (4 + pair * 4 + 16)),
                    readU32 (pySlice data (4 + pair * 4 + 16) (4 + pair * 4 + 20)) with
              | some timestamp_end, some message_id =>
                  .ok (ts, { timestamp := ts, message_id := message_id, entry_type := w0,
                             timestamp_end := some timestamp_end })
              | _, _ => .error .structError

/-- The `EVENT_TABLE` loop: build the entry dict over the pair indices. -/
def etFold (data : List Nat) : List Nat → List (Nat × EventEntry) →
    Except PyError (List (Nat × EventEntry))
  | [], d => .ok d
  | p :: ps, d =>
      match etBody data p with
      | .error e => .error e
      | .ok (k, v) => etFold data ps (dictInsert k v d)

/-- `decode_value` from utils.py.  Scalars unpack a buffer of the exact
width; `STRING` decodes UTF-8; the two composite branches read the 4-byte
anchor timestamp (raising `struct.error` on a buffer shorter than four
bytes), check the length assertions, and then walk the remaining strides.
The `TIMESERIES` loop steps the pair index by 2 (8-byte strides), the
`EVENT_TABLE` loop by 5 (20-byte strides). -/
def decode_value (data_type : DataType) (data : List Nat) : Except PyError DecodedValue :=
  match data_type with
  | .BOOL =>
      match data with
      | [b] => .ok (.bool (b != 0))
      | _ => .error .structError
  | .UINT8 =>
      match data with
      | [b] => .ok (.int (b : Int))
      | _ => .error .structError
  | .INT8 =>
      match data with
      | [b] => .ok (.int (asSigned 256 b))
      | _ => .error .structError
  | .UINT16 =>
      match readU16 data with
      | some w => .ok (.int (w : Int))
      | none => .error .structError
  | .INT16 =>
      match readU16 data with
      | some w => .ok (.int (asSigned 65536 w))
      | none => .error .structError
  | .UINT32 =>
      match readU32 data with
      | some w => .ok (.int (w : Int))
      | none => .error .structError
  | .INT32 =>
      match readU32 data with
      | some w => .ok (.int (asSigned 4294967296 w))
      | none => .error .structError
  | .ENUM =>
      match readU16 data with
      | some w => .ok (.int (w : Int))
      | none => .error .structError
  | .FLOAT =>
      match readU32 data with
      | some w => .ok (.floatBits w)
      | none => .error .structError
  | .STRING =>
      match String.fromUTF8? (ByteArray.mk ((data.map (fun b => UInt8.ofNat b)).toArray)) with
      | some s => .ok (.str s)
      | none => .error .unicodeDecodeError
  | .TIMESERIES =>
      match readU32 (pySlice data 0 4) with
      | none => .error .structError
      | some ts =>
          if data.length % 4 = 0 then
            if data.length / 4 % 2 = 1 then
              match tsFold data (pyRange 0 (data.length / 4 - 1) 2) [] with
              | .ok d => .ok (.timeseries ts d)
              | .error e => .error e
            else .error .assertError
          else .error .assertError
  | .EVENT_TABLE =>
      match readU32 (pySlice data 0 4) with
      | none => .error .structError
      | some ts =>
          if data.length % 4 = 0 then
            if (data.length - 4) % 20 = 0 then
              match etFold data (pyRange 0 (data.length / 4 - 1) 5) [] with
              | .ok d => .ok (.eventTable ts d)
              | .error e => .error e
            else .error .assertError
          else .error .assertError

/-! ## Lemmas about the checksum engine -/

lemma and_ffff (d : Nat) : d &&& 0x0000FFFF = d % 65536 := by
  have h := Nat.and_pow_two_sub_one_eq_mod d 16
  norm_num at h
  exact h

lemma xor_lt_65536 (a b : Nat) (ha : a < 65536) (hb : b < 65536) : a ^^^ b < 65536 := by
  have e : (2 : Nat) ^ 16 = 65536 := by norm_num
  rw [← e] at ha hb ⊢
  exact Nat.xor_lt_two_pow ha hb

lemma and_hi (d : Nat) (hd : d < 131072) :
    d &&& 0x7FFF0000 = if 65536 ≤ d then 65536 else 0 := by
  apply Nat.eq_of_testBit_eq
  intro i
  rw [Nat.testBit_and]
  rcases Nat.lt_trichotomy i 16 with hi | hi | hi
  · have hm : Nat.testBit 0x7FFF0000 i = false := by
      have hall : ∀ j, j < 16 → Nat.testBit 0x7FFF0000 j = false := by decide
      exact hall i hi
    have hr : Nat.testBit (if 65536 ≤ d then 65536 else 0) i = false := by
      by_cases h : 65536 ≤ d
      · rw [if_pos h]
        have hall : ∀ j, j < 16 → Nat.testBit 65536 j = false := by decide
        exact hall i hi
      · rw [if_neg h]
        exact Nat.zero_testBit i
    rw [hm, hr, Bool.and_false]
  · subst hi
    have hm : Nat.testBit 0x7FFF0000 16 = true := by decide
    rw [hm, Bool.and_true]
    by_cases h : 65536 ≤ d
    · rw [if_pos h]
      have h1 : d / 2 ^ 16 % 2 = 1 := by
        have : d / 65536 = 1 := by omega
        norm_num [this]
      rw [Nat.testBit_to_div_mod, h1]
      decide
    · rw [if_neg h]
      have h1 : d / 2 ^ 16 % 2 = 0 := by
        have : d / 65536 = 0 := by omega
        norm_num [this]
      rw [Nat.testBit_to_div_mod, Nat.zero_testBit, h1]
      decide
  · have hdi : d < 2 ^ i := by
      calc d < 131072 := hd
        _ = 2 ^ 17 := by norm_num
        _ ≤ 2 ^ i := Nat.pow_le_pow_right (by norm_num) (by omega)
    rw [Nat.testBit_lt_two_pow hdi, Bool.false_and]
    have hr : Nat.testBit (if 65536 ≤ d then 65536 else 0) i = false := by
      by_cases h : 65536 ≤ d
      · rw [if_pos h]
        apply Nat.testBit_lt_two_pow
        calc (65536 : Nat) < 2 ^ 17 := by norm_num
          _ ≤ 2 ^ i := Nat.pow_le_pow_right (by norm_num) (by omega)
      · rw [if_neg h]
        exact Nat.zero_testBit i
    rw [hr]

lemma crcStepBit_eq (c : Nat) (hc : c < 65536) :
    crcStepBit c = crcRefStep c ∧ crcStepBit c < 65536 := by
  have hs : c <<< 1 = c * 2 := by rw [Nat.shiftLeft_eq]
  have hd : c * 2 < 131072 := by omega
  have e16 : (2 : Nat) ^ 16 = 65536 := by norm_num
  unfold crcStepBit crcRefStep polynom
  simp only [hs, and_hi (c * 2) hd, and_ffff, e16]
  by_cases h : 65536 ≤ c * 2
  · simp only [if_pos h]
    constructor
    · rw [if_pos (by norm_num : (65536 : Nat) ≠ 0)]
    · rw [if_pos (by norm_num : (65536 : Nat) ≠ 0)]
      exact xor_lt_65536 _ _ (Nat.mod_lt _ (by norm_num)) (by norm_num)
  · simp only [if_neg h]
    constructor
    · rw [if_neg (by simp : ¬((0 : Nat) ≠ 0))]
    · rw [if_neg (by simp : ¬((0 : Nat) ≠ 0))]
      omega

lemma crcBits_eq (n : Nat) : ∀ c : Nat, c < 65536 →
    crcBits n c = crcRefBits n c ∧ crcBits n c < 65536 := by
  induction n with
  | zero => intro c hc; exact ⟨rfl, hc⟩
  | succ n ih =>
      intro c hc
      have h := crcStepBit_eq c hc
      have h2 := ih (crcStepBit c) h.2
      refine ⟨?_, h2.2⟩
      show crcBits n (crcStepBit c) = crcRefBits n (crcRefStep c)
      rw [← h.1]
      exact h2.1

lemma crcByteStep_eq (c b : Nat) (hc : c < 65536) (hb : b < 256) :
    crcByteStep c b = crcRefByteStep c b ∧ crcByteStep c b < 65536 := by
  have e8 : (2 : Nat) ^ 8 = 256 := by norm_num
  have hsh : b <<< 8 = b * 2 ^ 8 := Nat.shiftLeft_eq b 8
  have hx : c ^^^ b * 2 ^ 8 < 65536 := xor_lt_65536 _ _ hc (by rw [e8]; omega)
  unfold crcByteStep crcRefByteStep
  rw [hsh]
  exact crcBits_eq 8 _ hx

lemma crcFold_eq (l : List Nat) : ∀ c : Nat, c < 65536 → (∀ b ∈ l, b < 256) →
    l.foldl crcByteStep c = l.foldl crcRefByteStep c ∧ l.foldl crcByteStep c < 65536 := by
  induction l with
  | nil =>
      intro c hc _
      refine ⟨?_, hc⟩
      simp only [List.foldl_nil]
  | cons b t ih =>
      intro c hc hb
      have h := crcByteStep_eq c b hc (hb b (by simp))
      have ht := ih (crcByteStep c b) h.2 (fun x hx => hb x (by simp [hx]))
      simp only [List.foldl_cons]
      exact ⟨by rw [← h.1]; exact ht.1, ht.2⟩

/-- C2: for every byte sequence, `CRC16` computes exactly the reference
algorithm of the spec: accumulator seeded 0xFFFF, each byte XORed into the
high 8 bits, eight rounds of shift-left-and-conditionally-fold with the
polynomial 0x1021, result the low 16 bits of the accumulator (both sides
applying the same odd-length zero-padding step first). -/
theorem crc16_matches_spec_algorithm (data : List Nat) (hdata : ∀ b ∈ data, b < 256) :
    CRC16 data = crcRef data := by
  have e16 : (2 : Nat) ^ 16 = 65536 := by norm_num
  simp only [CRC16, crcRef]
  have hcond : (data.length &&& 0x01 ≠ 0) ↔ (data.length % 2 = 1) := by
    rw [Nat.and_one_is_mod]; omega
  by_cases h : data.length % 2 = 1
  · rw [if_pos (hcond.mpr h), if_pos h]
    have hb : ∀ b ∈ data ++ [0], b < 256 := by
      intro b hbm
      rcases List.mem_append.mp hbm with h1 | h1
      · exact hdata b h1
      · simp at h1; omega
    have h1 := crcFold_eq (data ++ [0]) 0xFFFF (by norm_num) hb
    have h2 : (data ++ [0]).foldl crcRefByteStep 0xFFFF < 65536 := h1.1 ▸ h1.2
    rw [h1.1, e16, Nat.mod_eq_of_lt h2]
  · rw [if_neg (fun hx => h (hcond.mp hx)), if_neg h]
    have h1 := crcFold_eq data 0xFFFF (by norm_num) hdata
    have h2 : data.foldl crcRefByteStep 0xFFFF < 65536 := h1.1 ▸ h1.2
    rw [h1.1, e16, Nat.mod_eq_of_lt h2]

/-- Witness for C2 at the concrete input `[18, 52]`. -/
theorem crc16_matches_spec_algorithm_witness : CRC16 [18, 52] = crcRef [18, 52] :=
  crc16_matches_spec_algorithm [18, 52] (by decide)

/-- C6: a byte sequence of odd length has the same checksum as that
sequence with one zero byte appended (the padding is a trailing zero, not
a skipped first byte: dropping the first byte gives a different result on
`[1, 2, 3]`). -/
theorem crc16_pads_odd_with_zero :
    (∀ data : List Nat, data.length % 2 = 1 → CRC16 data = CRC16 (data ++ [0])) ∧
    CRC16 [1, 2, 3] ≠ CRC16 [2, 3] := by
  constructor
  · intro data h
    simp only [CRC16]
    have h1 : data.length &&& 0x01 ≠ 0 := by rw [Nat.and_one_is_mod]; omega
    have h2 : ¬((data ++ [0]).length &&& 0x01 ≠ 0) := by
      rw [Nat.and_one_is_mod, List.length_append]
      simp only [List.length_cons, List.length_nil]
      omega
    rw [if_pos h1, if_neg h2]
  · set_option maxRecDepth 8000 in decide

/-- Witness for C6 at the concrete input `[5]`. -/
theorem crc16_pads_odd_with_zero_witness : CRC16 [5] = CRC16 [5, 0] :=
  crc16_pads_odd_with_zero.1 [5] (by decide)

/-- C8: on every byte sequence (the empty one included) `CRC16` is a total
function into [0, 65535]; the Lean embedding is total by construction, so
no error case exists. -/
theorem crc16_in_range (data : List Nat) (hdata : ∀ b ∈ data, b < 256) :
    CRC16 data ≤ 65535 := by
  simp only [CRC16]
  by_cases h : data.length &&& 0x01 ≠ 0
  · rw [if_pos h]
    have hb : ∀ b ∈ data ++ [0], b < 256 := by
      intro b hbm
      rcases List.mem_append.mp hbm with h1 | h1
      · exact hdata b h1
      · simp at h1; omega
    have h1 := crcFold_eq (data ++ [0]) 0xFFFF (by norm_num) hb
    omega
  · rw [if_neg h]
    have h1 := crcFold_eq data 0xFFFF (by norm_num) hdata
    omega

/-- Witness for C8 at the concrete input `[0, 255]` (and the bound holds
with value 65535 on the empty input, where the fold never runs). -/
theorem crc16_in_range_witness : CRC16 [0, 255] ≤ 65535 :=
  crc16_in_range [0, 255] (by decide)

/-! ## Lemmas about the value codec -/

lemma pySlice_zero (data : List Nat) (j : Nat) : pySlice data 0 j = data.take j := by
  unfold pySlice
  rw [List.drop_zero]

lemma readU32_short (bs : List Nat) (h : bs.length < 4) : readU32 bs = none := by
  rcases bs with _ | ⟨a, _ | ⟨b, _ | ⟨c, _ | ⟨d, rest⟩⟩⟩⟩
  · rfl
  · rfl
  · rfl
  · rfl
  · simp only [List.length_cons] at h
    omega

lemma readU32_len4 (bs : List Nat) (h : bs.length = 4) : ∃ w, readU32 bs = some w := by
  rcases bs with _ | ⟨a, _ | ⟨b, _ | ⟨c, _ | ⟨d, _ | ⟨e, rest⟩⟩⟩⟩⟩
  · simp only [List.length_nil] at h
    omega
  · simp only [List.length_cons, List.length_nil] at h
    omega
  · simp only [List.length_cons, List.length_nil] at h
    omega
  · simp only [List.length_cons, List.length_nil] at h
    omega
  · exact ⟨_, rfl⟩
  · simp only [List.length_cons] at h
    omega

lemma anchor_read_none (data : List Nat) (h : data.length < 4) :
    readU32 (pySlice data 0 4) = none := by
  apply readU32_short
  rw [pySlice_zero, List.length_take]
  omega

lemma anchor_read_some (data : List Nat) (h : 4 ≤ data.length) :
    ∃ w, readU32 (pySlice data 0 4) = some w := by
  apply readU32_len4
  rw [pySlice_zero, List.length_take]
  omega

lemma decode_ts_short (data : List Nat) (h : data.length < 4) :
    decode_value .TIMESERIES data = .error .structError := by
  simp only [decode_value, anchor_read_none data h]

lemma decode_et_short (data : List Nat) (h : data.length < 4) :
    decode_value .EVENT_TABLE data = .error .structError := by
  simp only [decode_value, anchor_read_none data h]

/-- C10: on a buffer shorter than the 4-byte anchor timestamp (the empty
buffer included), both composite decoders fail with the `struct.error` of
the initial anchor read, before any length assertion fires and before any
mapping entry is produced. -/
theorem decode_short_buffer_fails (data : List Nat) (h : data.length < 4) :
    decode_value .TIMESERIES data = .error .structError ∧
    decode_value .EVENT_TABLE data = .error .structError :=
  ⟨decode_ts_short data h, decode_et_short data h⟩

/-- Witness for C10 at the concrete two-byte input `[1, 2]`. -/
theorem decode_short_buffer_fails_witness :
    decode_value .TIMESERIES [1, 2] = .error .structError ∧
    decode_value .EVENT_TABLE [1, 2] = .error .structError :=
  decode_short_buffer_fails [1, 2] (by decide)

/-- C5: a TIMESERIES buffer whose length is not divisible by 4 or whose
post-anchor length is not a multiple of 8 fails to decode, and an
EVENT_TABLE buffer whose post-anchor length is not a multiple of 20 fails
to decode; in either case no (truncated) mapping is returned. -/
theorem composite_length_invariant_errors (data : List Nat) :
    (data.length % 4 ≠ 0 ∨ (data.length - 4) % 8 ≠ 0 →
      (decode_value .TIMESERIES data).isOk = false) ∧
    ((data.length - 4) % 20 ≠ 0 →
      (decode_value .EVENT_TABLE data).isOk = false) := by
  constructor
  · intro h
    by_cases hshort : data.length < 4
    · rw [decode_ts_short data hshort]
      rfl
    · push_neg at hshort
      obtain ⟨w, hw⟩ := anchor_read_some data hshort
      simp only [decode_value, hw]
      by_cases h4 : data.length % 4 = 0
      · rw [if_pos h4]
        have hodd : ¬(data.length / 4 % 2 = 1) := by
          rcases h with h | h
          · exact absurd h4 h
          · omega
        rw [if_neg hodd]
        rfl
      · rw [if_neg h4]
        rfl
  · intro h
    have hlen : 4 < data.length := by
      by_contra hc
      push_neg at hc
      exact h (by omega)
    obtain ⟨w, hw⟩ := anchor_read_some data (by omega)
    simp only [decode_value, hw]
    by_cases h4 : data.length % 4 = 0
    · rw [if_pos h4, if_neg h]
      rfl
    · rw [if_neg h4]
      rfl

/-- Witness for C5 at the concrete five-byte input `[0, 0, 0, 0, 0]`. -/
theorem composite_length_invariant_errors_witness :
    (decode_value .TIMESERIES [0, 0, 0, 0, 0]).isOk = false ∧
    (decode_value .EVENT_TABLE [0, 0, 0, 0, 0]).isOk = false :=
  ⟨(composite_length_invariant_errors [0, 0, 0, 0, 0]).1 (by decide),
   (composite_length_invariant_errors [0, 0, 0, 0, 0]).2 (by decide)⟩

/-- C9: a 4-byte buffer (an anchor timestamp with zero entries) decodes
under both composite tags: the length invariants admit the zero-entry
case, the loop runs zero times, and the result pairs the anchor with an
empty mapping. -/
theorem decode_anchor_only_empty (a b c d : Nat) :
    decode_value .TIMESERIES [a, b, c, d] =
      .ok (.timeseries (((a * 256 + b) * 256 + c) * 256 + d) []) ∧
    decode_value .EVENT_TABLE [a, b, c, d] =
      .ok (.eventTable (((a * 256 + b) * 256 + c) * 256 + d) []) := by
  constructor
  · simp only [decode_value, pySlice, List.drop_zero]
    norm_num [tsFold, pyRange, readU32]
  · simp only [decode_value, pySlice, List.drop_zero]
    norm_num [etFold, pyRange, readU32]

/-- C7: `encode_value` rejects the composite tags TIMESERIES and
EVENT_TABLE for every input value with the `KeyError` of the final
dispatch branch; no byte sequence is produced. -/
theorem encode_composite_unsupported (v : Value) :
    encode_value .TIMESERIES v = .error .keyError ∧
    encode_value .EVENT_TABLE v = .error .keyError :=
  ⟨rfl, rfl⟩

/-- C3: within a 20-byte EVENT_TABLE stride at pair index `pair`, an entry
type of `s` (code 115) or `w` (code 119) makes the decoder take the
message id from stride bytes 8-11, the old value from bytes 12-15 and the
new value from bytes 16-19, with no end timestamp; any other entry type
makes it take the end timestamp from bytes 12-15 and the message id from
bytes 16-19 with no old/new values, stride bytes 8-11 being ignored (the
second conjunct assumes nothing about them). -/
theorem event_entry_variant_layout :
    (∀ (data : List Nat) (pair w0 ts mid vold vnew : Nat),
      w0 = 115 ∨ w0 = 119 →
      readU32 (pySlice data (4 + pair * 4) (4 + pair * 4 + 4)) = some w0 →
      readU32 (pySlice data (4 + pair * 4 + 4) (4 + pair * 4 + 8)) = some ts →
      readU32 (pySlice data (4 + pair * 4 + 8) (4 + pair * 4 + 12)) = some mid →
      readU32 (pySlice data (4 + pair * 4 + 12) (4 + pair * 4 + 16)) = some vold →
      readU32 (pySlice data (4 + pair * 4 + 16) (4 + pair * 4 + 20)) = some vnew →
      etBody data pair = .ok (ts, { timestamp := ts, message_id := mid, entry_type := w0,
                                    value_old := some vold, value_new := some vnew,
                                    timestamp_end := none })) ∧
    (∀ (data : List Nat) (pair w0 ts tend mid : Nat),
      w0 < 128 → w0 ≠ 115 → w0 ≠ 119 →
      readU32 (pySlice data (4 + pair * 4) (4 + pair * 4 + 4)) = some w0 →
      readU32 (pySlice data (4 + pair * 4 + 4) (4 + pair * 4 + 8)) = some ts →
      readU32 (pySlice data (4 + pair * 4 + 12) (4 + pair * 4 + 16)) = some tend →
      readU32 (pySlice data (4 + pair * 4 + 16) (4 + pair * 4 + 20)) = some mid →
      etBody data pair = .ok (ts, { timestamp := ts, message_id := mid, entry_type := w0,
                                    value_old := none, value_new := none,
                                    timestamp_end := some tend })) := by
  constructor
  · intro data pair w0 ts mid vold vnew hw h0 h1 h2 h3 h4
    have hv : ¬256 ≤ w0 := by rcases hw with h | h <;> omega
    have hu : ¬128 ≤ w0 := by rcases hw with h | h <;> omega
    simp only [etBody, h0, h1, h2, h3, h4]
    rw [if_neg hv, if_neg hu, if_pos hw]
  · intro data pair w0 ts tend mid hlt hn1 hn2 h0 h1 h3 h4
    have hv : ¬256 ≤ w0 := by omega
    have hu : ¬128 ≤ w0 := by omega
    simp only [etBody, h0, h1, h3, h4]
    rw [if_neg hv, if_neg hu, if_neg (not_or.mpr ⟨hn1, hn2⟩)]

/-- Witness for C3: the spec example stride (entry type `s`, entry
timestamp 1000, message id 5, old value 10, new value 20) placed after a
zero anchor, decoded at pair index 0; and a stride with entry type `c`
(code 99), where bytes 12-15 become the end timestamp. -/
theorem event_entry_variant_layout_witness :
    etBody [0, 0, 0, 0, 0, 0, 0, 115, 0, 0, 3, 232, 0, 0, 0, 5, 0, 0, 0, 10, 0, 0, 0, 20] 0 =
      .ok (1000, { timestamp := 1000, message_id := 5, entry_type := 115,
                   value_old := some 10, value_new := some 20, timestamp_end := none }) ∧
    etBody [0, 0, 0, 0, 0, 0, 0, 99, 0, 0, 3, 232, 0, 0, 0, 7, 0, 0, 7, 208, 0, 0, 0, 5] 0 =
      .ok (1000, { timestamp := 1000, message_id := 5, entry_type := 99,
                   value_old := none, value_new := none, timestamp_end := some 2000 }) := by
  constructor
  · exact event_entry_variant_layout.1
      [0, 0, 0, 0, 0, 0, 0, 115, 0, 0, 3, 232, 0, 0, 0, 5, 0, 0, 0, 10, 0, 0, 0, 20]
      0 115 1000 5 10 20 (Or.inl rfl) (by decide) (by decide) (by decide) (by decide) (by decide)
  · exact event_entry_variant_layout.2
      [0, 0, 0, 0, 0, 0, 0, 99, 0, 0, 3, 232, 0, 0, 0, 7, 0, 0, 7, 208, 0, 0, 0, 5]
      0 99 1000 2000 5 (by decide) (by decide) (by decide) (by decide) (by decide) (by decide)
      (by decide)

/-- Counterexample for C4: an EVENT_TABLE buffer whose first stride has
entry-type field 0x00000173 (upper bytes not all zero, low byte the code
of `s`) does not decode; `bytes([371])` raises `ValueError`, so the upper
three bytes of the field do prevent a successful decode. -/
theorem event_entry_type_high_bytes_counterexample :
    decode_value .EVENT_TABLE
      [0, 0, 0, 0, 0, 0, 1, 115, 0, 0, 3, 232, 0, 0, 0, 5, 0, 0, 0, 10, 0, 0, 0, 20] =
      .error .valueError := by
  simp only [decode_value, pySlice, List.drop_zero]
  norm_num [etFold, etBody, pyRange, readU32, pySlice]

/-- C4 (amended): the entry-type discriminator is read as the whole 4-byte
big-endian field value; the decode of the variant selector succeeds only
when that value is an ASCII code below 128 (so the upper three bytes must
be zero and the low byte below 128), and then the discriminator is exactly
that value, the low byte.  A field value of 256 or more (nonzero upper
bytes) raises `ValueError`, one between 128 and 255 raises
`UnicodeDecodeError`. -/
theorem event_entry_type_discriminator_amended :
    (∀ (data : List Nat) (pair w0 : Nat),
      readU32 (pySlice data (4 + pair * 4) (4 + pair * 4 + 4)) = some w0 →
      256 ≤ w0 → etBody data pair = .error .valueError) ∧
    (∀ (data : List Nat) (pair w0 : Nat),
      readU32 (pySlice data (4 + pair * 4) (4 + pair * 4 + 4)) = some w0 →
      128 ≤ w0 → w0 < 256 → etBody data pair = .error .unicodeDecodeError) ∧
    (∀ (data : List Nat) (pair w0 k : Nat) (e : EventEntry),
      readU32 (pySlice data (4 + pair * 4) (4 + pair * 4 + 4)) = some w0 →
      etBody data pair = .ok (k, e) → e.entry_type = w0 ∧ w0 < 128) := by
  refine ⟨?_, ?_, ?_⟩
  · intro data pair w0 h0 hv
    simp only [etBody, h0]
    rw [if_pos hv]
  · intro data pair w0 h0 hu hv
    simp only [etBody, h0]
    rw [if_neg (by omega : ¬256 ≤ w0), if_pos hu]
  · intro data pair w0 k e h0 hok
    by_cases hv : 256 ≤ w0
    · have hbad : etBody data pair = .error .valueError := by
        simp only [etBody, h0]
        rw [if_pos hv]
      rw [hbad] at hok
      exact Except.noConfusion hok
    by_cases hu : 128 ≤ w0
    · have hbad : etBody data pair = .error .unicodeDecodeError := by
        simp only [etBody, h0]
        rw [if_neg hv, if_pos hu]
      rw [hbad] at hok
      exact Except.noConfusion hok
    refine ⟨?_, by omega⟩
    simp only [etBody, h0] at hok
    rw [if_neg hv, if_neg hu] at hok
    split at hok
    · exact Except.noConfusion hok
    · split at hok
      · split at hok
        all_goals first
          | exact Except.noConfusion hok
          | (have hp := Except.ok.inj hok
             injection hp with hk he
             rw [← he])
      · split at hok
        all_goals first
          | exact Except.noConfusion hok
          | (have hp := Except.ok.inj hok
             injection hp with hk he
             rw [← he])

/-- Witness for C4 (amended): the three conjuncts exercised at concrete
strides with entry-type field values 371, 200 and 115. -/
theorem event_entry_type_discriminator_amended_witness :
    etBody [0, 0, 0, 0, 0, 0, 1, 115, 0, 0, 3, 232, 0, 0, 0, 5, 0, 0, 0, 10, 0, 0, 0, 20] 0 =
      .error .valueError ∧
    etBody [0, 0, 0, 0, 0, 0, 0, 200, 0, 0, 3, 232, 0, 0, 0, 5, 0, 0, 0, 10, 0, 0, 0, 20] 0 =
      .error .unicodeDecodeError ∧
    ({ timestamp := 1000, message_id := 5, entry_type := 115, value_old := some 10,
       value_new := some 20, timestamp_end := none } : EventEntry).entry_type = 115 ∧
      (115 : Nat) < 128 := by
  refine ⟨?_, ?_, ?_⟩
  · exact event_entry_type_discriminator_amended.1
      [0, 0, 0, 0, 0, 0, 1, 115, 0, 0, 3, 232, 0, 0, 0, 5, 0, 0, 0, 10, 0, 0, 0, 20]
      0 371 (by decide) (by decide)
  · exact (event_entry_type_discriminator_amended.2).1
      [0, 0, 0, 0, 0, 0, 0, 200, 0, 0, 3, 232, 0, 0, 0, 5, 0, 0, 0, 10, 0, 0, 0, 20]
      0 200 (by decide) (by decide) (by decide)
  · exact (event_entry_type_discriminator_amended.2).2
      [0, 0, 0, 0, 0, 0, 0, 115, 0, 0, 3, 232, 0, 0, 0, 5, 0, 0, 0, 10, 0, 0, 0, 20]
      0 115 1000
      { timestamp := 1000, message_id := 5, entry_type := 115, value_old := some 10,
        value_new := some 20, timestamp_end := none }
      (by decide)
      (by
        simp only [etBody, pySlice]
        norm_num [readU32])

/-! ## Round-trip lemmas for the scalar codec (towards C1) -/

lemma bool_roundtrip (i : Int) (bs : List Nat)
    (h : encode_value .BOOL (.int i) = .ok bs) :
    decode_value .BOOL bs = .ok (.bool (i != 0)) := by
  simp only [encode_value, pyNeZero] at h
  have hbs := Except.ok.inj h
  subst hbs
  by_cases hi : i = 0
  · subst hi
    norm_num [decode_value]
  · have ht : (i != 0) = true := by simp [hi]
    simp only [ht]
    norm_num [decode_value]

lemma int8_roundtrip (i : Int) (h1 : -128 ≤ i) (h2 : i ≤ 127) :
    ∃ bs, encode_value .INT8 (.int i) = .ok bs ∧
      decode_value .INT8 bs = .ok (.int i) := by
  refine ⟨[(i % 256).toNat], ?_, ?_⟩
  · simp only [encode_value]
    rw [if_pos ⟨h1, h2⟩]
  · simp only [decode_value]
    have hval : asSigned 256 ((i % 256).toNat) = i := by
      unfold asSigned
      split <;> omega
    rw [hval]

lemma int16_roundtrip (i : Int) (h1 : -32768 ≤ i) (h2 : i ≤ 32767) :
    ∃ bs, encode_value .INT16 (.int i) = .ok bs ∧
      decode_value .INT16 bs = .ok (.int i) := by
  refine ⟨u16ToBytes (i % 65536).toNat, ?_, ?_⟩
  · simp only [encode_value]
    rw [if_pos ⟨h1, h2⟩]
  · simp only [decode_value, u16ToBytes, readU16]
    have hval : asSigned 65536 ((i % 65536).toNat / 256 * 256 + (i % 65536).toNat % 256) = i := by
      unfold asSigned
      split <;> omega
    rw [hval]

lemma int32_roundtrip (i : Int) (h1 : -2147483648 ≤ i) (h2 : i ≤ 2147483647) :
    ∃ bs, encode_value .INT32 (.int i) = .ok bs ∧
      decode_value .INT32 bs = .ok (.int i) := by
  refine ⟨u32ToBytes (i % 4294967296).toNat, ?_, ?_⟩
  · simp only [encode_value]
    rw [if_pos ⟨h1, h2⟩]
  · simp only [decode_value, u32ToBytes, readU32]
    have hval : asSigned 4294967296
        ((((i % 4294967296).toNat / 16777216 * 256 + (i % 4294967296).toNat / 65536 % 256) * 256 +
            (i % 4294967296).toNat / 256 % 256) * 256 + (i % 4294967296).toNat % 256) = i := by
      unfold asSigned
      split <;> omega
    rw [hval]

lemma uint8_roundtrip (i : Int) (h1 : -128 ≤ i) (h2 : i ≤ 127) :
    ∃ bs, encode_value .UINT8 (.int i) = .ok bs ∧
      decode_value .UINT8 bs = .ok (.int (i % 256)) := by
  refine ⟨[(i % 256).toNat], ?_, ?_⟩
  · simp only [encode_value]
    rw [if_pos ⟨h1, h2⟩]
  · simp only [decode_value]
    have hval : (((i % 256).toNat : Int)) = i % 256 := by omega
    rw [hval]

lemma uint16_roundtrip (i : Int) (h1 : -32768 ≤ i) (h2 : i ≤ 32767) :
    ∃ bs, encode_value .UINT16 (.int i) = .ok bs ∧
      decode_value .UINT16 bs = .ok (.int (i % 65536)) := by
  refine ⟨u16ToBytes (i % 65536).toNat, ?_, ?_⟩
  · simp only [encode_value]
    rw [if_pos ⟨h1, h2⟩]
  · simp only [decode_value, u16ToBytes, readU16]
    have hval : (((i % 65536).toNat / 256 * 256 + (i % 65536).toNat % 256 : Nat) : Int) =
        i % 65536 := by omega
    rw [hval]

lemma uint32_roundtrip (i : Int) (h1 : -2147483648 ≤ i) (h2 : i ≤ 2147483647) :
    ∃ bs, encode_value .UINT32 (.int i) = .ok bs ∧
      decode_value .UINT32 bs = .ok (.int (i % 4294967296)) := by
  refine ⟨u32ToBytes (i % 4294967296).toNat, ?_, ?_⟩
  · simp only [encode_value]
    rw [if_pos ⟨h1, h2⟩]
  · simp only [decode_value, u32ToBytes, readU32]
    have hval : (((((i % 4294967296).toNat / 16777216 * 256 +
        (i % 4294967296).toNat / 65536 % 256) * 256 +
        (i % 4294967296).toNat / 256 % 256) * 256 + (i % 4294967296).toNat % 256 : Nat) : Int) =
        i % 4294967296 := by omega
    rw [hval]

lemma enum_roundtrip (i : Int) (h1 : -32768 ≤ i) (h2 : i ≤ 32767) :
    ∃ bs, encode_value .ENUM (.int i) = .ok bs ∧
      decode_value .ENUM bs = .ok (.int (i % 65536)) := by
  refine ⟨u16ToBytes (i % 65536).toNat, ?_, ?_⟩
  · simp only [encode_value]
    rw [if_pos ⟨h1, h2⟩]
  · simp only [decode_value, u16ToBytes, readU16]
    have hval : (((i % 65536).toNat / 256 * 256 + (i % 65536).toNat % 256 : Nat) : Int) =
        i % 65536 := by omega
    rw [hval]

lemma float_roundtrip (b : Nat) (hb : b < 4294967296) :
    ∃ bs, encode_value .FLOAT (.floatBits b) = .ok bs ∧
      decode_value .FLOAT bs = .ok (.floatBits b) := by
  refine ⟨u32ToBytes b, ?_, ?_⟩
  · simp only [encode_value]
    rw [if_pos hb]
  · simp only [decode_value, u32ToBytes, readU32]
    have hval : ((b / 16777216 * 256 + b / 65536 % 256) * 256 + b / 256 % 256) * 256 + b % 256 =
        b := by omega
    rw [hval]

/-- Counterexample for C1: the claim asserts
`encode(UINT16, 65535) == bytes [0xFF, 0xFF]`, but `struct.pack("<h", v)`
accepts only the signed 16-bit range, so `encode_value` raises
`struct.error` at 65535 instead of producing those bytes. -/
theorem uint16_encode_full_range_counterexample :
    encode_value .UINT16 (.int 65535) ≠ .ok [0xFF, 0xFF] := by
  intro h
  exact Except.noConfusion
    ((rfl : encode_value .UINT16 (.int 65535) = .error .structError).symm.trans h)

/-- C1 (amended): the scalar round-trip law holds on the domains the code
accepts.  Signed types round-trip exactly over their full width; BOOL
round-trips through the nonzero-normalisation; FLOAT round-trips at the
level of single-precision bit patterns.  For the unsigned-reinterpretation
types (UINT8, UINT16, UINT32, ENUM) the accepted inputs are the SIGNED
range of the same width: a negative input encodes identically to its
unsigned-wrapped counterpart and decode returns the non-negative wrapped
value (`i % 2^w`), so `encode(UINT16, -1) = [0xFF, 0xFF]` and
`decode(UINT16, [0xFF, 0xFF]) = 65535`, while inputs above the signed
maximum, 65535 among them, are rejected with `struct.error`. -/
theorem scalar_roundtrip_amended :
    (∀ (i : Int) (bs : List Nat), encode_value .BOOL (.int i) = .ok bs →
        decode_value .BOOL bs = .ok (.bool (i != 0))) ∧
    (∀ i : Int, -128 ≤ i → i ≤ 127 →
        ∃ bs, encode_value .INT8 (.int i) = .ok bs ∧
          decode_value .INT8 bs = .ok (.int i)) ∧
    (∀ i : Int, -32768 ≤ i → i ≤ 32767 →
        ∃ bs, encode_value .INT16 (.int i) = .ok bs ∧
          decode_value .INT16 bs = .ok (.int i)) ∧
    (∀ i : Int, -2147483648 ≤ i → i ≤ 2147483647 →
        ∃ bs, encode_value .INT32 (.int i) = .ok bs ∧
          decode_value .INT32 bs = .ok (.int i)) ∧
    (∀ i : Int, -128 ≤ i → i ≤ 127 →
        ∃ bs, encode_value .UINT8 (.int i) = .ok bs ∧
          decode_value .UINT8 bs = .ok (.int (i % 256))) ∧
    (∀ i : Int, -32768 ≤ i → i ≤ 32767 →
        ∃ bs, encode_value .UINT16 (.int i) = .ok bs ∧
          decode_value .UINT16 bs = .ok (.int (i % 65536))) ∧
    (∀ i : Int, -2147483648 ≤ i → i ≤ 2147483647 →
        ∃ bs, encode_value .UINT32 (.int i) = .ok bs ∧
          decode_value .UINT32 bs = .ok (.int (i % 4294967296))) ∧
    (∀ i : Int, -32768 ≤ i → i ≤ 32767 →
        ∃ bs, encode_value .ENUM (.int i) = .ok bs ∧
          decode_value .ENUM bs = .ok (.int (i % 65536))) ∧
    (∀ b : Nat, b < 4294967296 →
        ∃ bs, encode_value .FLOAT (.floatBits b) = .ok bs ∧
          decode_value .FLOAT bs = .ok (.floatBits b)) ∧
    encode_value .UINT16 (.int (-1)) = .ok [0xFF, 0xFF] ∧
    decode_value .UINT16 [0xFF, 0xFF] = .ok (.int 65535) ∧
    encode_value .UINT16 (.int 65535) = .error .structError :=
  ⟨bool_roundtrip, int8_roundtrip, int16_roundtrip, int32_roundtrip, uint8_roundtrip,
   uint16_roundtrip, uint32_roundtrip, enum_roundtrip, float_roundtrip, rfl, rfl, rfl⟩

/-- Witness for C1 (amended) at concrete inputs: BOOL at 1, INT8 at -7
(bytes `[249]`), UINT16 at -1 (bytes `[255, 255]`, decoding to 65535) and
FLOAT at the bit pattern 1078530011 (the single nearest pi). -/
theorem scalar_roundtrip_amended_witness :
    decode_value .BOOL [1] = .ok (.bool true) ∧
    decode_value .INT8 [249] = .ok (.int (-7)) ∧
    decode_value .UINT16 [255, 255] = .ok (.int 65535) ∧
    decode_value .FLOAT [64, 73, 15, 219] = .ok (.floatBits 1078530011) := by
  obtain ⟨hbool, hint8, -, -, -, huint16, -, -, hfloat, -, -, -⟩ := scalar_roundtrip_amended
  refine ⟨?_, ?_, ?_, ?_⟩
  · exact hbool 1 [1] rfl
  · obtain ⟨bs, he, hd⟩ := hint8 (-7) (by norm_num) (by norm_num)
    have hb : [249] = bs := Except.ok.inj (by rw [← he]; rfl)
    rw [← hb] at hd
    exact hd
  · obtain ⟨bs, he, hd⟩ := huint16 (-1) (by norm_num) (by norm_num)
    have hb : [255, 255] = bs := Except.ok.inj (by rw [← he]; rfl)
    rw [← hb] at hd
    exact hd
  · obtain ⟨bs, he, hd⟩ := hfloat 1078530011 (by norm_num)
    have hb : [64, 73, 15, 219] = bs := Except.ok.inj (by rw [← he]; rfl)
    rw [← hb] at hd
    exact hd

end Rct
